import Mathlib

/-!
Verification development for the LawyerCaseManager repository.

The definitions below are a shallow embedding of the in-memory entity store
(`server/storage.ts`, class `MemStorage`), the HTTP-route side-effect logic
(`server/routes.ts`), and the client-side professional-eligibility filter
(the hearing form component).  JavaScript `Map` objects are modelled as
association lists that preserve insertion order (`set` on an existing key
keeps its position, a new key is appended, `delete` removes the entry).
JavaScript `Date` values are modelled as integer milliseconds since the
epoch in a fixed-offset (UTC) calendar.  Machine numbers are modelled as
`Nat` (identifiers) and `Int` (amounts, timestamps).
-/

namespace JurisCRM

/-! ## Entity records (shared/schema.ts) -/

/-- Row of the `users` table. -/
structure User where
  id : Nat
  username : String
  password : String
  name : String
  email : String
  role : String
deriving DecidableEq, Repr

/-- Row of the `professionals` table. -/
structure Professional where
  id : Nat
  name : String
  email : String
  phone : String
  type : String
  specialization : String
  jurisdictions : List String
  userId : Option Nat
  active : Bool
deriving DecidableEq, Repr

/-- Row of the `jurisdictions` table. -/
structure Jurisdiction where
  id : Nat
  name : String
  state : String
  city : String
  address : String
deriving DecidableEq, Repr

/-- Row of the `hearings` table. -/
structure Hearing where
  id : Nat
  processNumber : String
  jurisdictionId : Nat
  date : String
  time : String
  type : String
  area : String
  professionalId : Option Nat
  status : String
  notes : Option String
  minutesUploaded : Bool
  minutesUrl : Option String
  paymentStatus : String
  paymentAmount : Option Int
  createdAt : Int
deriving DecidableEq, Repr

/-- Row of the `payments` table. -/
structure Payment where
  id : Nat
  hearingId : Nat
  professionalId : Nat
  amount : Int
  status : String
  paymentDate : Option Int
  notes : Option String
  createdAt : Int
deriving DecidableEq, Repr

/-- Row of the `tasks` table. -/
structure Task where
  id : Nat
  title : String
  description : String
  status : String
  type : String
  relatedId : Option Nat
  dueDate : Option Int
  createdAt : Int
deriving DecidableEq, Repr

/-! ## Insert payloads (the `insertXSchema` shapes: the row minus the
store-assigned fields). -/

/-- Payload of `createUser` (insertUserSchema omits `id`). -/
structure InsertUser where
  username : String
  password : String
  name : String
  email : String
  role : String
deriving DecidableEq, Repr

/-- Payload of `createProfessional` (insertProfessionalSchema omits `id`). -/
structure InsertProfessional where
  name : String
  email : String
  phone : String
  type : String
  specialization : String
  jurisdictions : List String
  userId : Option Nat
  active : Bool
deriving DecidableEq, Repr

/-- Payload of `createJurisdiction` (insertJurisdictionSchema omits `id`). -/
structure InsertJurisdiction where
  name : String
  state : String
  city : String
  address : String
deriving DecidableEq, Repr

/-- Payload of `createHearing` (insertHearingSchema omits `id`, `createdAt`,
`minutesUploaded`, `minutesUrl`, `paymentStatus`, `paymentAmount`). -/
structure InsertHearing where
  processNumber : String
  jurisdictionId : Nat
  date : String
  time : String
  type : String
  area : String
  professionalId : Option Nat
  status : String
  notes : Option String
deriving DecidableEq, Repr

/-- Payload of `createPayment` (insertPaymentSchema omits `id`, `createdAt`). -/
structure InsertPayment where
  hearingId : Nat
  professionalId : Nat
  amount : Int
  status : String
  paymentDate : Option Int
  notes : Option String
deriving DecidableEq, Repr

/-- Payload of `createTask` (insertTaskSchema omits `id`, `createdAt`). -/
structure InsertTask where
  title : String
  description : String
  status : String
  type : String
  relatedId : Option Nat
  dueDate : Option Int
  createdAt : Option Int
deriving DecidableEq, Repr

/-! ## Partial update payloads.  `update(id, partial)` receives a subset of
the row's fields (`Partial<T>` fed from `insertXSchema.partial()` by the
routes); a `some` field is present in the partial, a `none` field is absent.
The entity `id` is never supplied by any caller. -/

/-- Partial update payload for a `Professional`. -/
structure PartialProfessional where
  name : Option String := none
  email : Option String := none
  phone : Option String := none
  type : Option String := none
  specialization : Option String := none
  jurisdictions : Option (List String) := none
  userId : Option (Option Nat) := none
  active : Option Bool := none
deriving DecidableEq, Repr

/-- Partial update payload for a `Jurisdiction`. -/
structure PartialJurisdiction where
  name : Option String := none
  state : Option String := none
  city : Option String := none
  address : Option String := none
deriving DecidableEq, Repr

/-- Partial update payload for a `Hearing`. -/
structure PartialHearing where
  processNumber : Option String := none
  jurisdictionId : Option Nat := none
  date : Option String := none
  time : Option String := none
  type : Option String := none
  area : Option String := none
  professionalId : Option (Option Nat) := none
  status : Option String := none
  notes : Option (Option String) := none
  minutesUploaded : Option Bool := none
  minutesUrl : Option (Option String) := none
  paymentStatus : Option String := none
  paymentAmount : Option (Option Int) := none
  createdAt : Option Int := none
deriving DecidableEq, Repr

/-- Partial update payload for a `Payment`. -/
structure PartialPayment where
  hearingId : Option Nat := none
  professionalId : Option Nat := none
  amount : Option Int := none
  status : Option String := none
  paymentDate : Option (Option Int) := none
  notes : Option (Option String) := none
  createdAt : Option Int := none
deriving DecidableEq, Repr

/-- Partial update payload for a `Task`. -/
structure PartialTask where
  title : Option String := none
  description : Option String := none
  status : Option String := none
  type : Option String := none
  relatedId : Option (Option Nat) := none
  dueDate : Option (Option Int) := none
  createdAt : Option Int := none
deriving DecidableEq, Repr

/-! ## Shallow merges: the object spread `{ ...existing, ...partial }` copies
every field present in the partial over the existing record and preserves
the rest.  The stored `id` is kept (no caller supplies `id` in a partial). -/

/-- Spread merge for professionals. -/
def mergeProfessional (e : Professional) (p : PartialProfessional) : Professional :=
  { id := e.id
    name := p.name.getD e.name
    email := p.email.getD e.email
    phone := p.phone.getD e.phone
    type := p.type.getD e.type
    specialization := p.specialization.getD e.specialization
    jurisdictions := p.jurisdictions.getD e.jurisdictions
    userId := p.userId.getD e.userId
    active := p.active.getD e.active }

/-- Spread merge for jurisdictions. -/
def mergeJurisdiction (e : Jurisdiction) (p : PartialJurisdiction) : Jurisdiction :=
  { id := e.id
    name := p.name.getD e.name
    state := p.state.getD e.state
    city := p.city.getD e.city
    address := p.address.getD e.address }

/-- Spread merge for hearings. -/
def mergeHearing (e : Hearing) (p : PartialHearing) : Hearing :=
  { id := e.id
    processNumber := p.processNumber.getD e.processNumber
    jurisdictionId := p.jurisdictionId.getD e.jurisdictionId
    date := p.date.getD e.date
    time := p.time.getD e.time
    type := p.type.getD e.type
    area := p.area.getD e.area
    professionalId := p.professionalId.getD e.professionalId
    status := p.status.getD e.status
    notes := p.notes.getD e.notes
    minutesUploaded := p.minutesUploaded.getD e.minutesUploaded
    minutesUrl := p.minutesUrl.getD e.minutesUrl
    paymentStatus := p.paymentStatus.getD e.paymentStatus
    paymentAmount := p.paymentAmount.getD e.paymentAmount
    createdAt := p.createdAt.getD e.createdAt }

/-- Spread merge for payments. -/
def mergePayment (e : Payment) (p : PartialPayment) : Payment :=
  { id := e.id
    hearingId := p.hearingId.getD e.hearingId
    professionalId := p.professionalId.getD e.professionalId
    amount := p.amount.getD e.amount
    status := p.status.getD e.status
    paymentDate := p.paymentDate.getD e.paymentDate
    notes := p.notes.getD e.notes
    createdAt := p.createdAt.getD e.createdAt }

/-- Spread merge for tasks. -/
def mergeTask (e : Task) (p : PartialTask) : Task :=
  { id := e.id
    title := p.title.getD e.title
    description := p.description.getD e.description
    status := p.status.getD e.status
    type := p.type.getD e.type
    relatedId := p.relatedId.getD e.relatedId
    dueDate := p.dueDate.getD e.dueDate
    createdAt := p.createdAt.getD e.createdAt }

/-! ## JavaScript `Map` model -/

/-- A JavaScript `Map<number, α>` as an insertion-ordered association list. -/
abbrev Table (α : Type) : Type := List (Nat × α)

/-- `map.get(k)`: first (in a well-formed map, only) entry with key `k`. -/
def tableGet {α : Type} : Table α → Nat → Option α
  | [], _ => none
  | e :: es, k => if e.1 = k then some e.2 else tableGet es k

/-- `map.has(k)`. -/
def tableHas {α : Type} (t : Table α) (k : Nat) : Bool :=
  (tableGet t k).isSome

/-- `map.set(k, v)`: replace in place when the key exists, else append. -/
def tableSet {α : Type} : Table α → Nat → α → Table α
  | [], k, v => [(k, v)]
  | e :: es, k, v => if e.1 = k then (k, v) :: es else e :: tableSet es k v

/-- `map.delete(k)` (key removal; a JS map holds each key at most once). -/
def tableDelete {α : Type} (t : Table α) (k : Nat) : Table α :=
  t.filter (fun e => !(e.1 = k : Bool))

/-- `Array.from(map.values())`: the values in insertion order. -/
def tableValues {α : Type} (t : Table α) : List α :=
  t.map (fun e => e.2)

theorem tableGet_set_self {α : Type} (t : Table α) (k : Nat) (v : α) :
    tableGet (tableSet t k v) k = some v := by
  induction t with
  | nil => simp [tableSet, tableGet]
  | cons e es ih =>
      by_cases h : e.1 = k
      · simp [tableSet, tableGet, h]
      · simp [tableSet, tableGet, h, ih]

theorem tableGet_set_ne {α : Type} (t : Table α) (k k' : Nat) (v : α)
    (h : k' ≠ k) : tableGet (tableSet t k v) k' = tableGet t k' := by
  have hk : ¬ (k = k') := fun hh => h hh.symm
  induction t with
  | nil => simp [tableSet, tableGet, hk]
  | cons e es ih =>
      by_cases he : e.1 = k
      · subst he
        simp [tableSet, tableGet, hk]
      · by_cases he' : e.1 = k'
        · simp [tableSet, tableGet, he, he', h]
        · simp [tableSet, tableGet, he, he', ih]

theorem tableGet_delete_self {α : Type} (t : Table α) (k : Nat) :
    tableGet (tableDelete t k) k = none := by
  induction t with
  | nil => simp [tableDelete, tableGet]
  | cons e es ih =>
      by_cases h : e.1 = k
      · simpa [tableDelete, tableGet, h] using ih
      · simpa [tableDelete, tableGet, h] using ih

theorem tableGet_delete_ne {α : Type} (t : Table α) (k k' : Nat)
    (h : k' ≠ k) : tableGet (tableDelete t k) k' = tableGet t k' := by
  induction t with
  | nil => simp [tableDelete, tableGet]
  | cons e es ih =>
      by_cases he : e.1 = k
      · subst he
        have hne : ¬ (e.1 = k') := fun hh => h (hh.symm)
        simpa [tableDelete, tableGet, hne] using ih
      · by_cases he' : e.1 = k'
        · simp [tableDelete, tableGet, he, he', h]
        · simpa [tableDelete, tableGet, he, he'] using ih

theorem tableHas_iff_mem_keys {α : Type} (t : Table α) (k : Nat) :
    tableHas t k = true ↔ k ∈ t.map Prod.fst := by
  induction t with
  | nil => simp [tableHas, tableGet]
  | cons e es ih =>
      by_cases h : e.1 = k
      · simp [tableHas, tableGet, h]
      · have hks : ¬ (k = e.1) := fun hh => h hh.symm
        simpa [tableHas, tableGet, h, hks] using ih

/-! ## The in-memory store (`MemStorage` in server/storage.ts).

Every method of the class becomes a pure function `MemStorage → ... →
result × MemStorage`.  `new Date()` calls become explicit `now : Int`
arguments.  The constructor initialises every map empty and every counter
to 1 (the seed data is itself a sequence of `create` calls over this
state). -/

/-- The fields of the `MemStorage` class. -/
structure MemStorage where
  users : Table User
  professionals : Table Professional
  jurisdictions : Table Jurisdiction
  hearings : Table Hearing
  payments : Table Payment
  tasks : Table Task
  userIdCounter : Nat
  professionalIdCounter : Nat
  jurisdictionIdCounter : Nat
  hearingIdCounter : Nat
  paymentIdCounter : Nat
  taskIdCounter : Nat
deriving DecidableEq, Repr

/-- The constructor's state before `seedData()` runs: empty maps, all
counters at 1. -/
def emptyStorage : MemStorage :=
  { users := [], professionals := [], jurisdictions := [], hearings := []
    payments := [], tasks := []
    userIdCounter := 1, professionalIdCounter := 1, jurisdictionIdCounter := 1
    hearingIdCounter := 1, paymentIdCounter := 1, taskIdCounter := 1 }

/-- `createUser`. -/
def createUser (s : MemStorage) (u : InsertUser) : User × MemStorage :=
  let id := s.userIdCounter
  let newUser : User :=
    { id := id, username := u.username, password := u.password
      name := u.name, email := u.email, role := u.role }
  (newUser, { s with users := tableSet s.users id newUser, userIdCounter := id + 1 })

/-- `createProfessional`. -/
def createProfessional (s : MemStorage) (p : InsertProfessional) :
    Professional × MemStorage :=
  let id := s.professionalIdCounter
  let newProfessional : Professional :=
    { id := id, name := p.name, email := p.email, phone := p.phone
      type := p.type, specialization := p.specialization
      jurisdictions := p.jurisdictions, userId := p.userId, active := p.active }
  (newProfessional,
    { s with professionals := tableSet s.professionals id newProfessional
             professionalIdCounter := id + 1 })

/-- `createJurisdiction`. -/
def createJurisdiction (s : MemStorage) (j : InsertJurisdiction) :
    Jurisdiction × MemStorage :=
  let id := s.jurisdictionIdCounter
  let newJurisdiction : Jurisdiction :=
    { id := id, name := j.name, state := j.state, city := j.city, address := j.address }
  (newJurisdiction,
    { s with jurisdictions := tableSet s.jurisdictions id newJurisdiction
             jurisdictionIdCounter := id + 1 })

/-- `createHearing`: spreads the insert payload and fills the defaulted
fields `minutesUploaded=false`, `paymentStatus="pending"`, `createdAt=now`
(the fields absent from the payload stay unset). -/
def createHearing (s : MemStorage) (h : InsertHearing) (now : Int) :
    Hearing × MemStorage :=
  let id := s.hearingIdCounter
  let newHearing : Hearing :=
    { id := id, processNumber := h.processNumber, jurisdictionId := h.jurisdictionId
      date := h.date, time := h.time, type := h.type, area := h.area
      professionalId := h.professionalId, status := h.status, notes := h.notes
      minutesUploaded := false, minutesUrl := none
      paymentStatus := "pending", paymentAmount := none, createdAt := now }
  (newHearing,
    { s with hearings := tableSet s.hearings id newHearing, hearingIdCounter := id + 1 })

/-- `createTask`. -/
def createTask (s : MemStorage) (t : InsertTask) (now : Int) : Task × MemStorage :=
  let id := s.taskIdCounter
  let newTask : Task :=
    { id := id, title := t.title, description := t.description, status := t.status
      type := t.type, relatedId := t.relatedId, dueDate := t.dueDate, createdAt := now }
  (newTask, { s with tasks := tableSet s.tasks id newTask, taskIdCounter := id + 1 })

/-- `createPayment`: stores the payment, then — when the referenced hearing
exists — mirrors the payment's status and amount onto it (the map entry is
rewritten under the hearing's own `id` field, exactly as
`this.hearings.set(hearing.id, hearing)` does). -/
def createPayment (s : MemStorage) (p : InsertPayment) (now : Int) :
    Payment × MemStorage :=
  let id := s.paymentIdCounter
  let newPayment : Payment :=
    { id := id, hearingId := p.hearingId, professionalId := p.professionalId
      amount := p.amount, status := p.status, paymentDate := p.paymentDate
      notes := p.notes, createdAt := now }
  let s1 : MemStorage :=
    { s with payments := tableSet s.payments id newPayment, paymentIdCounter := id + 1 }
  match tableGet s1.hearings p.hearingId with
  | none => (newPayment, s1)
  | some hearing =>
      let hearing' : Hearing :=
        { hearing with paymentStatus := p.status, paymentAmount := some p.amount }
      (newPayment, { s1 with hearings := tableSet s1.hearings hearing.id hearing' })

/-- `updateProfessional`. -/
def updateProfessional (s : MemStorage) (id : Nat) (p : PartialProfessional) :
    Option Professional × MemStorage :=
  match tableGet s.professionals id with
  | none => (none, s)
  | some existing =>
      let updated := mergeProfessional existing p
      (some updated, { s with professionals := tableSet s.professionals id updated })

/-- `updateJurisdiction`. -/
def updateJurisdiction (s : MemStorage) (id : Nat) (p : PartialJurisdiction) :
    Option Jurisdiction × MemStorage :=
  match tableGet s.jurisdictions id with
  | none => (none, s)
  | some existing =>
      let updated := mergeJurisdiction existing p
      (some updated, { s with jurisdictions := tableSet s.jurisdictions id updated })

/-- `updateHearing`. -/
def updateHearing (s : MemStorage) (id : Nat) (p : PartialHearing) :
    Option Hearing × MemStorage :=
  match tableGet s.hearings id with
  | none => (none, s)
  | some existing =>
      let updated := mergeHearing existing p
      (some updated, { s with hearings := tableSet s.hearings id updated })

/-- `updateTask`. -/
def updateTask (s : MemStorage) (id : Nat) (p : PartialTask) :
    Option Task × MemStorage :=
  match tableGet s.tasks id with
  | none => (none, s)
  | some existing =>
      let updated := mergeTask existing p
      (some updated, { s with tasks := tableSet s.tasks id updated })

/-- `updatePayment`: merges the partial onto the stored payment, then — when
the partial carries a truthy (non-empty) `status` different from the stored
one — mirrors the new status onto the hearing referenced by the *stored*
payment's `hearingId` (`this.hearings.get(existingPayment.hearingId)`). -/
def updatePayment (s : MemStorage) (id : Nat) (p : PartialPayment) :
    Option Payment × MemStorage :=
  match tableGet s.payments id with
  | none => (none, s)
  | some existing =>
      let updated := mergePayment existing p
      let s1 : MemStorage := { s with payments := tableSet s.payments id updated }
      match p.status with
      | none => (some updated, s1)
      | some st =>
          -- `if (payment.status && existingPayment.status !== payment.status)`:
          -- an empty string is falsy in JavaScript.
          if st ≠ "" ∧ existing.status ≠ st then
            match tableGet s1.hearings existing.hearingId with
            | none => (some updated, s1)
            | some hearing =>
                let hearing' : Hearing := { hearing with paymentStatus := st }
                (some updated,
                  { s1 with hearings := tableSet s1.hearings hearing.id hearing' })
          else (some updated, s1)

/-- `deleteProfessional`. -/
def deleteProfessional (s : MemStorage) (id : Nat) : Bool × MemStorage :=
  (tableHas s.professionals id,
    { s with professionals := tableDelete s.professionals id })

/-- `deleteJurisdiction`. -/
def deleteJurisdiction (s : MemStorage) (id : Nat) : Bool × MemStorage :=
  (tableHas s.jurisdictions id,
    { s with jurisdictions := tableDelete s.jurisdictions id })

/-- `deleteHearing`. -/
def deleteHearing (s : MemStorage) (id : Nat) : Bool × MemStorage :=
  (tableHas s.hearings id, { s with hearings := tableDelete s.hearings id })

/-- `deletePayment`. -/
def deletePayment (s : MemStorage) (id : Nat) : Bool × MemStorage :=
  (tableHas s.payments id, { s with payments := tableDelete s.payments id })

/-- `deleteTask`. -/
def deleteTask (s : MemStorage) (id : Nat) : Bool × MemStorage :=
  (tableHas s.tasks id, { s with tasks := tableDelete s.tasks id })

/-! ## Route-level composite operation (server/routes.ts):
`POST /api/hearings/:id/minutes`. -/

/-- Error responses the minutes-upload route can produce: HTTP 400
("No file uploaded"), HTTP 404 ("Hearing not found"), HTTP 500. -/
inductive ApiError where
  | badRequest
  | notFound
  | serverError
deriving DecidableEq, Repr

/-- The minutes-upload handler.  `file` is the uploaded file's stored name
(`req.file`), absent when no file was supplied.  Order of checks follows the
source: missing file is rejected (400) before the hearing lookup (404);
on success the hearing is marked `minutesUploaded=true`,
`minutesUrl="/uploads/<filename>"`, `status="completed"`, and the first
pending `upload_minutes` task whose `relatedId` equals the hearing id is
marked completed. -/
def uploadMinutesRoute (s : MemStorage) (id : Nat) (file : Option String) :
    Except ApiError Hearing × MemStorage :=
  match file with
  | none => (Except.error ApiError.badRequest, s)
  | some filename =>
      match tableGet s.hearings id with
      | none => (Except.error ApiError.notFound, s)
      | some _ =>
          let minutesUrl := "/uploads/" ++ filename
          match updateHearing s id
              { minutesUploaded := some true
                minutesUrl := some (some minutesUrl)
                status := some "completed" } with
          | (none, s1) => (Except.error ApiError.serverError, s1)
          | (some updatedHearing, s1) =>
              match (tableValues s1.tasks).find? (fun t =>
                  t.type == "upload_minutes" && t.relatedId == some id &&
                    t.status == "pending") with
              | none => (Except.ok updatedHearing, s1)
              | some minutesTask =>
                  let (_, s2) := updateTask s1 minutesTask.id
                    { status := some "completed" }
                  (Except.ok updatedHearing, s2)

/-! ## Client-side eligibility filter (the hearing-form component).

`selectedJurisdictionId = 0` and `selectedArea = ""` are the falsy
"nothing selected" form values (`!selectedJurisdictionId || !selectedArea`). -/

/-- `getJurisdictionState`: looks the jurisdiction up by id and returns
`jurisdiction?.state || null` — an empty state string is falsy in
JavaScript and therefore collapses to `null`. -/
def getJurisdictionState (jurisdictions : List Jurisdiction) (id : Nat) :
    Option String :=
  match jurisdictions.find? (fun j => j.id == id) with
  | none => none
  | some jurisdiction =>
      if jurisdiction.state = "" then none else some jurisdiction.state

/-- `eligibleProfessionals`: the professionals eligible for the currently
selected jurisdiction and area. -/
def eligibleProfessionals (professionals : List Professional)
    (jurisdictions : List Jurisdiction)
    (selectedJurisdictionId : Nat) (selectedArea : String) : List Professional :=
  professionals.filter fun professional =>
    if selectedJurisdictionId = 0 ∨ selectedArea = "" then false
    else
      match getJurisdictionState jurisdictions selectedJurisdictionId with
      | none => false
      | some jurisdictionState =>
          professional.active &&
            professional.jurisdictions.contains jurisdictionState &&
            professional.specialization == selectedArea

/-! ## Dates and the financial summary.

Timestamps are milliseconds in a fixed-offset (UTC) proleptic-Gregorian
calendar, modelling the JavaScript `Date` library functions the source
relies on. -/

/-- Milliseconds in a day. -/
def dayMs : Int := 86400000

/-- Civil date (year, month 1..12, day) of a day number (days since the
Unix epoch); the standard era-based conversion. -/
def civilFromDays (z0 : Int) : Int × Int × Int :=
  let z := z0 + 719468
  let era := z.fdiv 146097
  let doe := z - era * 146097
  let yoe := (doe - doe.fdiv 1460 + doe.fdiv 36524 - doe.fdiv 146096).fdiv 365
  let y := yoe + era * 400
  let doy := doe - (365 * yoe + yoe.fdiv 4 - yoe.fdiv 100)
  let mp := (5 * doy + 2).fdiv 153
  let d := doy - (153 * mp + 2).fdiv 5 + 1
  let m := mp + (if mp < 10 then 3 else -9)
  (y + (if m ≤ 2 then 1 else 0), m, d)

/-- Day number of a civil date; linear in the day field, so day (and month)
overflow rolls over exactly as JavaScript `Date.setMonth` does. -/
def daysFromCivil (y0 m d : Int) : Int :=
  let y := y0 - (if m ≤ 2 then 1 else 0)
  let era := y.fdiv 400
  let yoe := y - era * 400
  let mp := m + (if m > 2 then -3 else 9)
  let doy := (153 * mp + 2).fdiv 5 + d - 1
  let doe := yoe * 365 + yoe.fdiv 4 - yoe.fdiv 100 + doy
  era * 146097 + doe - 719468

/-- `oneMonthAgo.setMonth(oneMonthAgo.getMonth() - 1)`: same civil day and
time of day, one calendar month earlier (with JavaScript's day-overflow
normalisation). -/
def monthAgo (now : Int) : Int :=
  let days := now.fdiv dayMs
  let rem := now - days * dayMs
  match civilFromDays days with
  | (y, m, d) => daysFromCivil y (m - 1) d * dayMs + rem

/-- Result record of `getFinancialSummary`. -/
structure FinancialSummary where
  total : Int
  pending : Int
  paid : Int
deriving DecidableEq, Repr

/-- `getFinancialSummary(period)`: filter the payments to the trailing
window — the last 7 days for "week" (`oneWeekAgo.setDate(getDate() - 7)`,
an exact 7-day shift in a fixed-offset calendar), the last calendar month
for "month", no filter otherwise — then sum the amounts overall and
restricted to status "pending" and "paid". -/
def getFinancialSummary (s : MemStorage) (period : String) (now : Int) :
    FinancialSummary :=
  let payments := tableValues s.payments
  let filteredPayments :=
    if period = "week" then
      let oneWeekAgo := now - 7 * dayMs
      payments.filter (fun p => oneWeekAgo ≤ p.createdAt)
    else if period = "month" then
      let oneMonthAgo := monthAgo now
      payments.filter (fun p => oneMonthAgo ≤ p.createdAt)
    else payments
  { total := filteredPayments.foldl (fun sum payment => sum + payment.amount) 0
    pending := (filteredPayments.filter (fun p => p.status == "pending")).foldl
      (fun sum payment => sum + payment.amount) 0
    paid := (filteredPayments.filter (fun p => p.status == "paid")).foldl
      (fun sum payment => sum + payment.amount) 0 }

/-! ## Operation sequences over the store, for the identifier-assignment
claims: every create and delete the storage interface offers (users have no
delete), with `createPayment` carrying its hearing-sync side effect. -/

/-- The six entity types the store manages. -/
inductive EType where
  | user
  | professional
  | jurisdiction
  | hearing
  | payment
  | task
deriving DecidableEq, Repr

/-- A create or delete call against the store. -/
inductive Op where
  | createUser (u : InsertUser)
  | createProfessional (p : InsertProfessional)
  | createJurisdiction (j : InsertJurisdiction)
  | createHearing (h : InsertHearing) (now : Int)
  | createPayment (p : InsertPayment) (now : Int)
  | createTask (t : InsertTask) (now : Int)
  | deleteProfessional (id : Nat)
  | deleteJurisdiction (id : Nat)
  | deleteHearing (id : Nat)
  | deletePayment (id : Nat)
  | deleteTask (id : Nat)

/-- State after one operation. -/
def applyOp (s : MemStorage) : Op → MemStorage
  | Op.createUser u => (createUser s u).2
  | Op.createProfessional p => (createProfessional s p).2
  | Op.createJurisdiction j => (createJurisdiction s j).2
  | Op.createHearing h now => (createHearing s h now).2
  | Op.createPayment p now => (createPayment s p now).2
  | Op.createTask t now => (createTask s t now).2
  | Op.deleteProfessional id => (deleteProfessional s id).2
  | Op.deleteJurisdiction id => (deleteJurisdiction s id).2
  | Op.deleteHearing id => (deleteHearing s id).2
  | Op.deletePayment id => (deletePayment s id).2
  | Op.deleteTask id => (deleteTask s id).2

/-- The identifiers an operation assigns in state `s` (tagged with their
entity type): a create assigns the entity's counter, a delete assigns
nothing. -/
def opAssigns (s : MemStorage) : Op → List (EType × Nat)
  | Op.createUser _ => [(EType.user, s.userIdCounter)]
  | Op.createProfessional _ => [(EType.professional, s.professionalIdCounter)]
  | Op.createJurisdiction _ => [(EType.jurisdiction, s.jurisdictionIdCounter)]
  | Op.createHearing _ _ => [(EType.hearing, s.hearingIdCounter)]
  | Op.createPayment _ _ => [(EType.payment, s.paymentIdCounter)]
  | Op.createTask _ _ => [(EType.task, s.taskIdCounter)]
  | Op.deleteProfessional _ => []
  | Op.deleteJurisdiction _ => []
  | Op.deleteHearing _ => []
  | Op.deletePayment _ => []
  | Op.deleteTask _ => []

/-- Run a sequence of operations, logging every assigned identifier in
order. -/
def runLog (s : MemStorage) : List Op → List (EType × Nat)
  | [] => []
  | o :: os => opAssigns s o ++ runLog (applyOp s o) os

/-- The id counter of one entity type. -/
def counterOf (e : EType) (s : MemStorage) : Nat :=
  match e with
  | EType.user => s.userIdCounter
  | EType.professional => s.professionalIdCounter
  | EType.jurisdiction => s.jurisdictionIdCounter
  | EType.hearing => s.hearingIdCounter
  | EType.payment => s.paymentIdCounter
  | EType.task => s.taskIdCounter

/-- Whether an operation is a create of entity type `e`. -/
def isCreateOf (e : EType) : Op → Bool
  | Op.createUser _ => e = EType.user
  | Op.createProfessional _ => e = EType.professional
  | Op.createJurisdiction _ => e = EType.jurisdiction
  | Op.createHearing _ _ => e = EType.hearing
  | Op.createPayment _ _ => e = EType.payment
  | Op.createTask _ _ => e = EType.task
  | _ => false

/-- Number of creates of entity type `e` in a sequence. -/
def createsCount (e : EType) (ops : List Op) : Nat :=
  (ops.filter (isCreateOf e)).length

/-- The identifiers assigned to entity type `e`, in assignment order. -/
def assignedOf (e : EType) (log : List (EType × Nat)) : List Nat :=
  log.filterMap (fun p => if p.1 = e then some p.2 else none)

theorem createPayment_counter (s : MemStorage) (p : InsertPayment) (now : Int)
    (e : EType) :
    counterOf e (createPayment s p now).2 =
      (if e = EType.payment then counterOf e s + 1 else counterOf e s) := by
  simp only [createPayment]
  split
  · cases e <;> simp [counterOf]
  · cases e <;> simp [counterOf]

theorem counterOf_applyOp (e : EType) (s : MemStorage) (o : Op) :
    counterOf e (applyOp s o) =
      (if isCreateOf e o then counterOf e s + 1 else counterOf e s) := by
  cases o
  case createPayment p now =>
    rw [show applyOp s (Op.createPayment p now) = (createPayment s p now).2 from rfl,
      createPayment_counter]
    cases e <;> simp [isCreateOf]
  all_goals
    cases e <;>
      simp [applyOp, createUser, createProfessional, createJurisdiction,
        createHearing, createTask, deleteProfessional, deleteJurisdiction,
        deleteHearing, deletePayment, deleteTask, counterOf, isCreateOf]

theorem assignedOf_runLog (e : EType) :
    ∀ (ops : List Op) (s : MemStorage),
      assignedOf e (runLog s ops) =
        List.range' (counterOf e s) (createsCount e ops) := by
  intro ops
  induction ops with
  | nil => intro s; simp [runLog, assignedOf, createsCount]
  | cons o os ih =>
      intro s
      have hsplit : assignedOf e (runLog s (o :: os)) =
          assignedOf e (opAssigns s o) ++ assignedOf e (runLog (applyOp s o) os) := by
        simp [runLog, assignedOf, List.filterMap_append]
      by_cases h : isCreateOf e o = true
      · have hass : assignedOf e (opAssigns s o) = [counterOf e s] := by
          cases o <;> simp_all [isCreateOf, opAssigns, assignedOf, counterOf]
        have hcount : createsCount e (o :: os) = createsCount e os + 1 := by
          simp [createsCount, List.filter_cons, h]
        have hctr : counterOf e (applyOp s o) = counterOf e s + 1 := by
          rw [counterOf_applyOp]; simp [h]
        rw [hsplit, hass, ih, hctr, hcount, List.range'_succ]
        rfl
      · have hass : assignedOf e (opAssigns s o) = [] := by
          cases o <;> simp_all [isCreateOf, opAssigns, assignedOf] <;>
            exact fun hh => h hh.symm
        have hcount : createsCount e (o :: os) = createsCount e os := by
          simp [createsCount, List.filter_cons, h]
        have hctr : counterOf e (applyOp s o) = counterOf e s := by
          rw [counterOf_applyOp]; simp [h]
        rw [hsplit, hass, ih, hctr, hcount]
        rfl

theorem range'_pairwise_lt : ∀ (n s : Nat), (List.range' s n).Pairwise (· < ·) := by
  intro n
  induction n with
  | zero => intro s; simp
  | succ m ih =>
      intro s
      rw [List.range'_succ]
      refine List.Pairwise.cons ?_ (ih (s + 1))
      intro x hx
      have hle := (List.mem_range'_1.mp hx).1
      omega

/-! ## Claim theorems -/

/-- C4: for every entity type, ids are assigned by the store at creation,
start at 1, are strictly increasing across successive create calls, and are
never reused: over any sequence of create and delete operations from a fresh
store, the ids assigned to each entity type are exactly 1, 2, …, k in order
(so each newly created id exceeds every id ever assigned before, deletions
notwithstanding). -/
theorem C4_id_assignment (ops : List Op) (e : EType) :
    assignedOf e (runLog emptyStorage ops) =
      List.range' 1 (createsCount e ops) ∧
    (assignedOf e (runLog emptyStorage ops)).Pairwise (· < ·) := by
  have hc : counterOf e emptyStorage = 1 := by cases e <;> rfl
  have h := assignedOf_runLog e ops emptyStorage
  rw [hc] at h
  exact ⟨h, h ▸ range'_pairwise_lt _ 1⟩

theorem mem_of_tableGet {α : Type} (t : Table α) (k : Nat) (v : α)
    (h : tableGet t k = some v) : (k, v) ∈ t := by
  induction t with
  | nil => simp [tableGet] at h
  | cons e es ih =>
      by_cases he : e.1 = k
      · simp only [tableGet, he, if_pos] at h
        have hv : e.2 = v := Option.some_injective _ h
        have he2 : e = (k, v) := Prod.ext he hv
        rw [he2.symm]
        exact List.mem_cons_self e es
      · simp only [tableGet, he, if_neg, not_false_iff] at h
        exact List.mem_cons_of_mem e (ih h)

/-- C8: deleting a jurisdiction returns whether it existed, removes exactly
that entry, and leaves every hearing (dangling `jurisdictionId` included)
and every other entity table completely unchanged — no cascade. -/
theorem C8_deleteJurisdiction (s : MemStorage) (j : Nat) :
    ((deleteJurisdiction s j).1 = true ↔ tableGet s.jurisdictions j ≠ none) ∧
    tableGet (deleteJurisdiction s j).2.jurisdictions j = none ∧
    (∀ k, k ≠ j →
      tableGet (deleteJurisdiction s j).2.jurisdictions k = tableGet s.jurisdictions k) ∧
    (deleteJurisdiction s j).2.hearings = s.hearings ∧
    (deleteJurisdiction s j).2.professionals = s.professionals ∧
    (deleteJurisdiction s j).2.payments = s.payments ∧
    (deleteJurisdiction s j).2.tasks = s.tasks ∧
    (deleteJurisdiction s j).2.users = s.users := by
  refine ⟨?_, ?_, ?_, rfl, rfl, rfl, rfl, rfl⟩
  · simp [deleteJurisdiction, tableHas, Option.isSome_iff_ne_none]
  · exact tableGet_delete_self s.jurisdictions j
  · intro k hk
    exact tableGet_delete_ne s.jurisdictions j k hk

/-- C10: deleting a payment removes only the payment record; the hearings
table (so every hearing's `paymentStatus`/`paymentAmount`, including values
mirrored from the deleted payment), the tasks table and all other entities
are untouched. -/
theorem C10_deletePayment (s : MemStorage) (id : Nat) :
    (deletePayment s id).1 = tableHas s.payments id ∧
    tableGet (deletePayment s id).2.payments id = none ∧
    (∀ k, k ≠ id →
      tableGet (deletePayment s id).2.payments k = tableGet s.payments k) ∧
    (deletePayment s id).2.hearings = s.hearings ∧
    (deletePayment s id).2.tasks = s.tasks ∧
    (deletePayment s id).2.professionals = s.professionals ∧
    (deletePayment s id).2.jurisdictions = s.jurisdictions ∧
    (deletePayment s id).2.users = s.users := by
  refine ⟨rfl, tableGet_delete_self s.payments id, ?_, rfl, rfl, rfl, rfl, rfl⟩
  intro k hk
  exact tableGet_delete_ne s.payments id k hk

/-- C5: for every entity type with an update operation, `update(id, partial)`
on an absent id returns `none` with the whole store untouched; on a present
id it returns the shallow merge of the partial onto the stored record
(fields present in the partial overwrite, all others are preserved — see the
`mergeX` definitions) and stores that merged record under the same id,
leaving every other id's record unchanged. -/
theorem C5_update_merge (s : MemStorage) (id : Nat)
    (pp : PartialProfessional) (pj : PartialJurisdiction) (ph : PartialHearing)
    (pm : PartialPayment) (pt : PartialTask) :
    (tableGet s.professionals id = none → updateProfessional s id pp = (none, s)) ∧
    (∀ e, tableGet s.professionals id = some e →
      (updateProfessional s id pp).1 = some (mergeProfessional e pp) ∧
      tableGet (updateProfessional s id pp).2.professionals id =
        some (mergeProfessional e pp) ∧
      (∀ k, k ≠ id → tableGet (updateProfessional s id pp).2.professionals k =
        tableGet s.professionals k)) ∧
    (tableGet s.jurisdictions id = none → updateJurisdiction s id pj = (none, s)) ∧
    (∀ e, tableGet s.jurisdictions id = some e →
      (updateJurisdiction s id pj).1 = some (mergeJurisdiction e pj) ∧
      tableGet (updateJurisdiction s id pj).2.jurisdictions id =
        some (mergeJurisdiction e pj) ∧
      (∀ k, k ≠ id → tableGet (updateJurisdiction s id pj).2.jurisdictions k =
        tableGet s.jurisdictions k)) ∧
    (tableGet s.hearings id = none → updateHearing s id ph = (none, s)) ∧
    (∀ e, tableGet s.hearings id = some e →
      (updateHearing s id ph).1 = some (mergeHearing e ph) ∧
      tableGet (updateHearing s id ph).2.hearings id = some (mergeHearing e ph) ∧
      (∀ k, k ≠ id → tableGet (updateHearing s id ph).2.hearings k =
        tableGet s.hearings k)) ∧
    (tableGet s.payments id = none → updatePayment s id pm = (none, s)) ∧
    (∀ e, tableGet s.payments id = some e →
      (updatePayment s id pm).1 = some (mergePayment e pm) ∧
      tableGet (updatePayment s id pm).2.payments id = some (mergePayment e pm) ∧
      (∀ k, k ≠ id → tableGet (updatePayment s id pm).2.payments k =
        tableGet s.payments k)) ∧
    (tableGet s.tasks id = none → updateTask s id pt = (none, s)) ∧
    (∀ e, tableGet s.tasks id = some e →
      (updateTask s id pt).1 = some (mergeTask e pt) ∧
      tableGet (updateTask s id pt).2.tasks id = some (mergeTask e pt) ∧
      (∀ k, k ≠ id → tableGet (updateTask s id pt).2.tasks k =
        tableGet s.tasks k)) := by
  refine ⟨?_, ?_, ?_, ?_, ?_, ?_, ?_, ?_, ?_, ?_⟩
  · intro h; simp [updateProfessional, h]
  · intro e he
    exact ⟨by simp [updateProfessional, he],
      by simp [updateProfessional, he, tableGet_set_self],
      fun k hk => by simp [updateProfessional, he, tableGet_set_ne _ _ _ _ hk]⟩
  · intro h; simp [updateJurisdiction, h]
  · intro e he
    exact ⟨by simp [updateJurisdiction, he],
      by simp [updateJurisdiction, he, tableGet_set_self],
      fun k hk => by simp [updateJurisdiction, he, tableGet_set_ne _ _ _ _ hk]⟩
  · intro h; simp [updateHearing, h]
  · intro e he
    exact ⟨by simp [updateHearing, he],
      by simp [updateHearing, he, tableGet_set_self],
      fun k hk => by simp [updateHearing, he, tableGet_set_ne _ _ _ _ hk]⟩
  · intro h; simp [updatePayment, h]
  · intro e he
    have hpay : (updatePayment s id pm).2.payments =
        tableSet s.payments id (mergePayment e pm) := by
      cases hps : pm.status with
      | none => simp [updatePayment, he, hps]
      | some st =>
          by_cases hc : st ≠ "" ∧ e.status ≠ st
          · cases hh : tableGet s.hearings e.hearingId with
            | none => simp [updatePayment, he, hps, hc, hh]
            | some H => simp [updatePayment, he, hps, hc, hh]
          · simp [updatePayment, he, hps, hc]
    have hfst : (updatePayment s id pm).1 = some (mergePayment e pm) := by
      cases hps : pm.status with
      | none => simp [updatePayment, he, hps]
      | some st =>
          by_cases hc : st ≠ "" ∧ e.status ≠ st
          · cases hh : tableGet s.hearings e.hearingId with
            | none => simp [updatePayment, he, hps, hc, hh]
            | some H => simp [updatePayment, he, hps, hc, hh]
          · simp [updatePayment, he, hps, hc]
    exact ⟨hfst, by rw [hpay]; exact tableGet_set_self _ _ _,
      fun k hk => by rw [hpay]; exact tableGet_set_ne _ _ _ _ hk⟩
  · intro h; simp [updateTask, h]
  · intro e he
    exact ⟨by simp [updateTask, he],
      by simp [updateTask, he, tableGet_set_self],
      fun k hk => by simp [updateTask, he, tableGet_set_ne _ _ _ _ hk]⟩

/-- Concrete task used by the C5 witness. -/
def w5Task : Task :=
  { id := 1, title := "Pagamento Pendente", description := "d"
    status := "pending", type := "payment", relatedId := some 3
    dueDate := none, createdAt := 0 }

/-- Concrete store used by the C5 witness: one task, no hearings. -/
def w5S : MemStorage :=
  { emptyStorage with tasks := [(1, w5Task)], taskIdCounter := 2 }

/-- C5 witness: at a concrete store, updating the present task 1 returns the
merged record, and updating the absent hearing 1 returns `none` leaving the
store untouched. -/
theorem C5_witness :
    (updateTask w5S 1 { status := some "completed" }).1 =
      some (mergeTask w5Task { status := some "completed" }) ∧
    updateHearing w5S 1 {} = (none, w5S) := by
  have h := C5_update_merge w5S 1 {} {} {} {} { status := some "completed" }
  exact ⟨(h.2.2.2.2.2.2.2.2.2 w5Task rfl).1, h.2.2.2.2.1 rfl⟩

theorem createPayment_fst (s : MemStorage) (p : InsertPayment) (now : Int) :
    (createPayment s p now).1 =
      { id := s.paymentIdCounter, hearingId := p.hearingId
        professionalId := p.professionalId, amount := p.amount
        status := p.status, paymentDate := p.paymentDate
        notes := p.notes, createdAt := now } := by
  simp only [createPayment]
  split <;> rfl

theorem createPayment_payments (s : MemStorage) (p : InsertPayment) (now : Int) :
    (createPayment s p now).2.payments =
      tableSet s.payments s.paymentIdCounter (createPayment s p now).1 := by
  rw [createPayment_fst]
  simp only [createPayment]
  split <;> rfl

/-- C2: `createPayment(hearingId, …, amount, status)` always stores the
payment under the fresh id `paymentIdCounter` with `createdAt` stamped —
hearing present or not — and, when the referenced hearing exists, rewrites
exactly that hearing's `paymentStatus` to the payment's status and
`paymentAmount` to its amount, all its other fields untouched. -/
theorem C2_createPayment (s : MemStorage) (p : InsertPayment) (now : Int)
    (hfresh : ∀ pr ∈ s.payments, pr.1 < s.paymentIdCounter) :
    (createPayment s p now).1.id = s.paymentIdCounter ∧
    (createPayment s p now).1.createdAt = now ∧
    (createPayment s p now).1.hearingId = p.hearingId ∧
    (createPayment s p now).1.amount = p.amount ∧
    (createPayment s p now).1.status = p.status ∧
    tableGet s.payments (createPayment s p now).1.id = none ∧
    tableGet (createPayment s p now).2.payments (createPayment s p now).1.id =
      some (createPayment s p now).1 ∧
    (tableGet s.hearings p.hearingId = none →
      (createPayment s p now).2.hearings = s.hearings) ∧
    (∀ H, tableGet s.hearings p.hearingId = some H → H.id = p.hearingId →
      tableGet (createPayment s p now).2.hearings p.hearingId =
        some { H with paymentStatus := p.status, paymentAmount := some p.amount }) := by
  have hfst := createPayment_fst s p now
  have hnotin : tableGet s.payments s.paymentIdCounter = none := by
    cases hg : tableGet s.payments s.paymentIdCounter with
    | none => rfl
    | some v =>
        have := hfresh _ (mem_of_tableGet _ _ _ hg)
        omega
  refine ⟨by rw [hfst], by rw [hfst], by rw [hfst], by rw [hfst], by rw [hfst],
    ?_, ?_, ?_, ?_⟩
  · rw [hfst]; exact hnotin
  · rw [createPayment_payments, hfst]
    exact tableGet_set_self _ _ _
  · intro hnone
    simp [createPayment, hnone]
  · intro H hH hid
    have : (createPayment s p now).2.hearings =
        tableSet s.hearings H.id
          { H with paymentStatus := p.status, paymentAmount := some p.amount } := by
      simp [createPayment, hH]
    rw [this, hid]
    exact tableGet_set_self _ _ _

/-- Concrete hearing for the C2 witness (the spec scenario: hearing starts
with `paymentStatus="pending"`). -/
def c2H : Hearing :=
  { id := 1, processNumber := "2023.0123.4567", jurisdictionId := 1
    date := "2024-06-10", time := "14:30", type := "Instruction", area := "Civil"
    professionalId := some 1, status := "completed", notes := none
    minutesUploaded := false, minutesUrl := none
    paymentStatus := "pending", paymentAmount := none, createdAt := 0 }

/-- Concrete store for the C2 witness. -/
def c2S : MemStorage :=
  { emptyStorage with hearings := [(1, c2H)], hearingIdCounter := 2 }

/-- Concrete payment payload for the C2 witness:
`recordPayment(H.id, profId, 300, "paid")`. -/
def c2P : InsertPayment :=
  { hearingId := 1, professionalId := 1, amount := 300, status := "paid"
    paymentDate := none, notes := none }

/-- C2 witness: after the scenario call, hearing 1 reads
`paymentStatus="paid"`, `paymentAmount=300`, and the payment was stored
under the fresh id 1. -/
theorem C2_witness :
    tableGet (createPayment c2S c2P 999).2.hearings 1 =
      some { c2H with paymentStatus := "paid", paymentAmount := some 300 } ∧
    (createPayment c2S c2P 999).1.id = 1 ∧
    tableGet (createPayment c2S c2P 999).2.payments 1 =
      some (createPayment c2S c2P 999).1 := by
  have h := C2_createPayment c2S c2P 999 (by intro pr hpr; cases hpr)
  exact ⟨h.2.2.2.2.2.2.2.2 c2H rfl rfl, h.1,
    by have h7 := h.2.2.2.2.2.2.1; rwa [h.1] at h7⟩

/-- Jurisdiction with an empty state code, for the C1 counterexample. -/
def c1J : Jurisdiction :=
  { id := 1, name := "Foro", state := "", city := "X", address := "Y" }

/-- Professional matching the C1 claim's eligibility conditions against
`c1J`, for the C1 counterexample. -/
def c1P : Professional :=
  { id := 1, name := "Dr", email := "e", phone := "p", type := "lawyer"
    specialization := "Civil", jurisdictions := [""], userId := none
    active := true }

/-- C1 counterexample: professional `c1P` is active, its specialization
equals the selected area, and the referenced jurisdiction `c1J` exists with
`c1J.state` contained in `c1P.jurisdictions` — so the claim's iff puts it in
the result — yet the code returns the empty list, because
`jurisdiction?.state || null` collapses the empty state string to `null`. -/
theorem C1_counterexample :
    c1P.active = true ∧ c1P.specialization = "Civil" ∧
    ([c1J].find? (fun j => j.id == 1) = some c1J) ∧
    c1J.state ∈ c1P.jurisdictions ∧
    eligibleProfessionals [c1P] [c1J] 1 "Civil" = [] := by
  refine ⟨rfl, rfl, rfl, ?_, ?_⟩ <;> decide

/-- C1 (amended): a professional is in the eligibility result iff it is in
the store, a jurisdiction and an area are selected, it is active, its
specialization equals the selected area, and the referenced jurisdiction
exists with a *non-empty* state code contained in the professional's
jurisdictions; the result is empty when nothing is selected or the
referenced jurisdiction does not exist. -/
theorem C1_eligibility_amended (ps : List Professional) (js : List Jurisdiction)
    (selId : Nat) (selArea : String) (p : Professional) :
    (p ∈ eligibleProfessionals ps js selId selArea ↔
      p ∈ ps ∧ selId ≠ 0 ∧ selArea ≠ "" ∧
      p.active = true ∧ p.specialization = selArea ∧
      ∃ jur, js.find? (fun j => j.id == selId) = some jur ∧
        jur.state ≠ "" ∧ jur.state ∈ p.jurisdictions) ∧
    ((selId = 0 ∨ selArea = "" ∨ js.find? (fun j => j.id == selId) = none) →
      eligibleProfessionals ps js selId selArea = []) := by
  constructor
  · by_cases h0 : selId = 0
    · simp [eligibleProfessionals, List.mem_filter, h0]
    · by_cases hA : selArea = ""
      · simp [eligibleProfessionals, List.mem_filter, hA]
      · cases hfind : js.find? (fun j => j.id == selId) with
        | none =>
            simp [eligibleProfessionals, List.mem_filter, getJurisdictionState,
              hfind, h0, hA]
        | some jur =>
            by_cases hst : jur.state = ""
            · simp [eligibleProfessionals, List.mem_filter, getJurisdictionState,
                hfind, hst, h0, hA]
            · simp only [eligibleProfessionals, List.mem_filter,
                getJurisdictionState, hfind, hst, h0, hA]
              simp [List.elem_iff, and_assoc, h0, hA, hst]
              tauto
  · intro h
    rcases h with h | h | h
    · simp [eligibleProfessionals, h]
    · simp [eligibleProfessionals, h]
    · by_cases h0 : selId = 0
      · simp [eligibleProfessionals, h0]
      · by_cases hA : selArea = ""
        · simp [eligibleProfessionals, hA]
        · simp [eligibleProfessionals, getJurisdictionState, h, h0, hA]

/-- Jurisdiction of the spec's C1 scenario. -/
def spJ : Jurisdiction :=
  { id := 1, name := "Foro Central Civil", state := "SP"
    city := "Sao Paulo", address := "x" }

/-- Professional of the spec's C1 scenario. -/
def spP : Professional :=
  { id := 1, name := "Dr. Carlos", email := "c@x", phone := "1"
    type := "lawyer", specialization := "Civil", jurisdictions := ["SP"]
    userId := none, active := true }

/-- C1 witness: the spec scenario (state "SP", active Civil professional
practising in "SP") is in the eligibility result, and with no jurisdiction
selected the result is empty. -/
theorem C1_witness :
    spP ∈ eligibleProfessionals [spP] [spJ] 1 "Civil" ∧
    eligibleProfessionals [spP] [spJ] 0 "Civil" = [] := by
  constructor
  · exact (C1_eligibility_amended [spP] [spJ] 1 "Civil" spP).1.mpr
      ⟨by decide, by decide, by decide, rfl, rfl, spJ, rfl, by decide, by decide⟩
  · exact (C1_eligibility_amended [spP] [spJ] 0 "Civil" spP).2 (Or.inl rfl)

theorem tableGet_of_find?_values (t : Table Task) (pred : Task → Bool)
    (x : Task) (hwf : ∀ e ∈ t, (e.2).id = e.1)
    (hnd : (t.map Prod.fst).Nodup)
    (hfind : (tableValues t).find? pred = some x) :
    tableGet t x.id = some x := by
  induction t with
  | nil => simp [tableValues] at hfind
  | cons e es ih =>
      rw [List.map_cons] at hnd
      have hnd' := List.nodup_cons.mp hnd
      have hide : (e.2).id = e.1 := hwf e (List.mem_cons_self e es)
      rw [tableValues, List.map_cons, List.find?_cons] at hfind
      cases hp : pred e.2 with
      | true =>
          rw [hp] at hfind
          have hx : e.2 = x := Option.some_injective _ hfind
          rw [tableGet, if_pos (by rw [← hx, hide])]
          rw [hx]
      | false =>
          rw [hp] at hfind
          have hxmem : x ∈ tableValues es := List.mem_of_find?_eq_some hfind
          obtain ⟨pr, hpr, hpx⟩ := List.mem_map.mp hxmem
          have hxkey : x.id ∈ es.map Prod.fst := by
            rw [← hpx, hwf pr (List.mem_cons_of_mem e hpr)]
            exact List.mem_map_of_mem Prod.fst hpr
          have hne : ¬ (e.1 = x.id) := fun hcontra => hnd'.1 (hcontra ▸ hxkey)
          rw [tableGet, if_neg hne]
          exact ih (fun q hq => hwf q (List.mem_cons_of_mem e hq)) hnd'.2 hfind

/-- A hearing after the minutes-upload route succeeds with file `f`. -/
def completedHearing (H : Hearing) (f : String) : Hearing :=
  { H with minutesUploaded := true
           minutesUrl := some ("/uploads/" ++ f)
           status := "completed" }

/-- A task marked completed. -/
def completedTask (t : Task) : Task :=
  { t with status := "completed" }

/-- Concrete hearing for the C3 counterexample and witness. -/
def c3H : Hearing :=
  { id := 1, processNumber := "2023.0001.2345", jurisdictionId := 1
    date := "2024-06-10", time := "14:30", type := "Instruction", area := "Civil"
    professionalId := some 1, status := "assigned", notes := none
    minutesUploaded := false, minutesUrl := none
    paymentStatus := "pending", paymentAmount := none, createdAt := 0 }

/-- Concrete pending `upload_minutes` task for hearing 1. -/
def c3T : Task :=
  { id := 1, title := "Upload de Ata Pendente", description := "d"
    status := "pending", type := "upload_minutes", relatedId := some 1
    dueDate := none, createdAt := 0 }

/-- Concrete store for C3: hearing 1 exists, task 1 is its pending
`upload_minutes` task. -/
def c3S : MemStorage :=
  { emptyStorage with hearings := [(1, c3H)], hearingIdCounter := 2
                      tasks := [(1, c3T)], taskIdCounter := 2 }

/-- C3 counterexample: the claim says a missing file makes the operation
report not-found, but with hearing 1 present and no file the route reports
the distinct bad-request error ("No file uploaded", HTTP 400, not 404) —
leaving the store unchanged. -/
theorem C3_counterexample :
    tableGet c3S.hearings 1 ≠ none ∧
    uploadMinutesRoute c3S 1 none = (Except.error ApiError.badRequest, c3S) ∧
    ApiError.badRequest ≠ ApiError.notFound := by
  refine ⟨?_, rfl, ?_⟩ <;> decide

/-- C3 (amended): recording a minutes upload with no file fails reporting
bad-request with no entity changed; with a file but no such hearing it fails
reporting not-found with no entity changed; otherwise it sets the hearing's
`minutesUploaded` to true, `minutesUrl` to the stored reference and `status`
to "completed", and completes at most one task — the first pending
`upload_minutes` task whose `relatedId` is the hearing id — leaving every
other task and entity unchanged.  (The store is assumed well-keyed: each
task stored under its own id, no duplicate keys.) -/
theorem C3_minutesUpload_amended (s : MemStorage) (id : Nat) (f : String) :
    uploadMinutesRoute s id none = (Except.error ApiError.badRequest, s) ∧
    (tableGet s.hearings id = none →
      uploadMinutesRoute s id (some f) = (Except.error ApiError.notFound, s)) ∧
    (∀ H, tableGet s.hearings id = some H →
      (∀ e ∈ s.tasks, (e.2).id = e.1) → (s.tasks.map Prod.fst).Nodup →
      ∃ uh s', uploadMinutesRoute s id (some f) = (Except.ok uh, s') ∧
        uh = { H with minutesUploaded := true
                      minutesUrl := some ("/uploads/" ++ f)
                      status := "completed" } ∧
        tableGet s'.hearings id = some uh ∧
        (∀ k, k ≠ id → tableGet s'.hearings k = tableGet s.hearings k) ∧
        s'.payments = s.payments ∧ s'.professionals = s.professionals ∧
        s'.jurisdictions = s.jurisdictions ∧ s'.users = s.users ∧
        ((tableValues s.tasks).find? (fun t =>
            t.type == "upload_minutes" && t.relatedId == some id &&
              t.status == "pending") = none → s'.tasks = s.tasks) ∧
        (∀ mt, (tableValues s.tasks).find? (fun t =>
            t.type == "upload_minutes" && t.relatedId == some id &&
              t.status == "pending") = some mt →
          tableGet s'.tasks mt.id = some { mt with status := "completed" } ∧
          (∀ k, k ≠ mt.id → tableGet s'.tasks k = tableGet s.tasks k))) := by
  refine ⟨rfl, ?_, ?_⟩
  · intro h
    simp [uploadMinutesRoute, h]
  · intro H hH hwf hnd
    cases hfind : (tableValues s.tasks).find? (fun t =>
        t.type == "upload_minutes" && t.relatedId == some id &&
          t.status == "pending") with
    | none =>
        refine ⟨completedHearing H f,
          { s with hearings := tableSet s.hearings id (completedHearing H f) },
          ?_, rfl, ?_, ?_, rfl, rfl, rfl, rfl, fun _ => rfl, ?_⟩
        · simp [uploadMinutesRoute, updateHearing, hH, hfind, completedHearing,
            mergeHearing]
        · exact tableGet_set_self _ _ _
        · intro k hk
          exact tableGet_set_ne _ _ _ _ hk
        · intro mt hmt
          exact Option.noConfusion hmt
    | some mt =>
        have hmtget : tableGet s.tasks mt.id = some mt :=
          tableGet_of_find?_values s.tasks _ mt hwf hnd hfind
        refine ⟨completedHearing H f,
          { s with hearings := tableSet s.hearings id (completedHearing H f),
                   tasks := tableSet s.tasks mt.id (completedTask mt) },
          ?_, rfl, ?_, ?_, rfl, rfl, rfl, rfl, ?_, ?_⟩
        · simp [uploadMinutesRoute, updateHearing, updateTask, hH, hfind,
            hmtget, completedHearing, completedTask, mergeHearing, mergeTask]
        · exact tableGet_set_self _ _ _
        · intro k hk
          exact tableGet_set_ne _ _ _ _ hk
        · intro hcontra
          exact Option.noConfusion hcontra
        · intro mt' hmt'
          obtain rfl : mt = mt' := Option.some_injective _ hmt'
          exact ⟨tableGet_set_self _ _ _, fun k hk => tableGet_set_ne _ _ _ _ hk⟩

/-- C3 witness: at the concrete store `c3S`, uploading a file for hearing 1
returns the completed hearing and marks task 1 completed. -/
theorem C3_witness :
    ∃ uh s', uploadMinutesRoute c3S 1 (some "ata.pdf") = (Except.ok uh, s') ∧
      uh = { c3H with minutesUploaded := true
                      minutesUrl := some "/uploads/ata.pdf"
                      status := "completed" } ∧
      tableGet s'.tasks 1 = some { c3T with status := "completed" } := by
  obtain ⟨uh, s', hroute, huh, -, -, -, -, -, -, -, hsome⟩ :=
    (C3_minutesUpload_amended c3S 1 "ata.pdf").2.2 c3H rfl
      (by decide) (by decide)
  exact ⟨uh, s', hroute, huh, (hsome c3T rfl).1⟩

/-- Concrete hearing for the C6/C9 counterexamples and witnesses. -/
def c6H : Hearing :=
  { id := 1, processNumber := "2023.0123.4567", jurisdictionId := 1
    date := "2024-06-10", time := "14:30", type := "Instruction", area := "Civil"
    professionalId := some 1, status := "completed", notes := none
    minutesUploaded := true, minutesUrl := none
    paymentStatus := "pending", paymentAmount := some 100, createdAt := 0 }

/-- Concrete stored payment for hearing 1, status "pending". -/
def c6P : Payment :=
  { id := 1, hearingId := 1, professionalId := 1, amount := 100
    status := "pending", paymentDate := none, notes := none, createdAt := 0 }

/-- Concrete store for C6: payment 1 owns hearing 1. -/
def c6S : MemStorage :=
  { emptyStorage with hearings := [(1, c6H)], hearingIdCounter := 2
                      payments := [(1, c6P)], paymentIdCounter := 2 }

/-- C6 counterexample: updating payment 1 with `status := ""` supplies a
status different from the stored "pending", so the claim requires the owning
hearing's `paymentStatus` to become "" — but the JavaScript truthiness guard
`if (payment.status && …)` treats the empty string as falsy and the hearing
is left untouched. -/
theorem C6_counterexample :
    (some "" : Option String) ≠ some c6P.status ∧
    tableGet c6S.payments 1 = some c6P ∧
    tableGet c6S.hearings 1 = some c6H ∧
    c6P.hearingId = 1 ∧
    (updatePayment c6S 1 { status := some "" }).2.hearings = c6S.hearings ∧
    c6H.paymentStatus ≠ "" := by
  refine ⟨?_, rfl, rfl, rfl, ?_, ?_⟩ <;> decide

/-- C6 (amended): for an existing payment, an update carrying a *non-empty*
status different from the stored one propagates the new status to the
hearing referenced by the stored payment (when that hearing exists); an
update with no status, the same status, or an empty status leaves every
hearing untouched; a payment update never changes any hearing's
`paymentAmount`; and it never touches tasks (or any other entity table) —
task completion happens only on payment creation.  (Hearings are assumed
stored under their own `id`.) -/
theorem C6_paymentUpdate_amended (s : MemStorage) (id : Nat)
    (u : PartialPayment) (ex : Payment)
    (hex : tableGet s.payments id = some ex)
    (hwf : ∀ e ∈ s.hearings, (e.2).id = e.1) :
    (updatePayment s id u).2.tasks = s.tasks ∧
    (updatePayment s id u).2.professionals = s.professionals ∧
    (updatePayment s id u).2.jurisdictions = s.jurisdictions ∧
    (updatePayment s id u).2.users = s.users ∧
    ((u.status = none ∨ u.status = some ex.status ∨ u.status = some "") →
      (updatePayment s id u).2.hearings = s.hearings) ∧
    (∀ st, u.status = some st → st ≠ "" → st ≠ ex.status →
      (tableGet s.hearings ex.hearingId = none →
        (updatePayment s id u).2.hearings = s.hearings) ∧
      (∀ Hh, tableGet s.hearings ex.hearingId = some Hh →
        tableGet (updatePayment s id u).2.hearings ex.hearingId =
          some ({ Hh with paymentStatus := st }) ∧
        (∀ k, k ≠ ex.hearingId →
          tableGet (updatePayment s id u).2.hearings k =
            tableGet s.hearings k))) ∧
    (∀ k H', tableGet (updatePayment s id u).2.hearings k = some H' →
      ∃ Ho, tableGet s.hearings k = some Ho ∧
        H'.paymentAmount = Ho.paymentAmount) := by
  have hframe : (updatePayment s id u).2.tasks = s.tasks ∧
      (updatePayment s id u).2.professionals = s.professionals ∧
      (updatePayment s id u).2.jurisdictions = s.jurisdictions ∧
      (updatePayment s id u).2.users = s.users := by
    cases hst : u.status with
    | none => simp [updatePayment, hex, hst]
    | some st =>
        by_cases hc : st ≠ "" ∧ ex.status ≠ st
        · cases hh : tableGet s.hearings ex.hearingId with
          | none => simp [updatePayment, hex, hst, hc, hh]
          | some Hh => simp [updatePayment, hex, hst, hc, hh]
        · simp [updatePayment, hex, hst, hc]
  have hdich : (updatePayment s id u).2.hearings = s.hearings ∨
      ∃ st Hh, tableGet s.hearings ex.hearingId = some Hh ∧
        (updatePayment s id u).2.hearings =
          tableSet s.hearings Hh.id ({ Hh with paymentStatus := st }) := by
    cases hst : u.status with
    | none => left; simp [updatePayment, hex, hst]
    | some st =>
        by_cases hc : st ≠ "" ∧ ex.status ≠ st
        · cases hh : tableGet s.hearings ex.hearingId with
          | none => left; simp [updatePayment, hex, hst, hc, hh]
          | some Hh =>
              right
              exact ⟨st, Hh, rfl, by simp [updatePayment, hex, hst, hc, hh]⟩
        · left; simp [updatePayment, hex, hst, hc]
  refine ⟨hframe.1, hframe.2.1, hframe.2.2.1, hframe.2.2.2, ?_, ?_, ?_⟩
  · intro hcond
    rcases hcond with h | h | h
    · simp [updatePayment, hex, h]
    · simp [updatePayment, hex, h]
    · simp [updatePayment, hex, h]
  · intro st hst hne hnee
    have hc : st ≠ "" ∧ ex.status ≠ st := ⟨hne, fun hh => hnee hh.symm⟩
    constructor
    · intro hh
      simp [updatePayment, hex, hst, hc, hh]
    · intro Hh hh
      have hid : Hh.id = ex.hearingId := hwf _ (mem_of_tableGet _ _ _ hh)
      have hhe : (updatePayment s id u).2.hearings =
          tableSet s.hearings Hh.id ({ Hh with paymentStatus := st }) := by
        simp [updatePayment, hex, hst, hc, hh]
      constructor
      · rw [hhe, hid]
        exact tableGet_set_self _ _ _
      · intro k hk
        rw [hhe, hid]
        exact tableGet_set_ne _ _ _ _ hk
  · intro k H' hget
    rcases hdich with hsame | ⟨st, Hh, hh, hset⟩
    · rw [hsame] at hget
      exact ⟨H', hget, rfl⟩
    · have hid : Hh.id = ex.hearingId := hwf _ (mem_of_tableGet _ _ _ hh)
      by_cases hk : k = Hh.id
      · subst hk
        rw [hset, tableGet_set_self] at hget
        obtain rfl : ({ Hh with paymentStatus := st } : Hearing) = H' :=
          Option.some_injective _ hget
        exact ⟨Hh, by rw [hid]; exact hh, rfl⟩
      · rw [hset, tableGet_set_ne _ _ _ _ hk] at hget
        exact ⟨H', hget, rfl⟩

/-- C6 witness: at the concrete store, updating payment 1 to the non-empty
status "paid" rewrites hearing 1's `paymentStatus` and leaves tasks
untouched. -/
theorem C6_witness :
    tableGet (updatePayment c6S 1 { status := some "paid" }).2.hearings 1 =
      some ({ c6H with paymentStatus := "paid" }) ∧
    (updatePayment c6S 1 { status := some "paid" }).2.tasks = c6S.tasks := by
  have h := C6_paymentUpdate_amended c6S 1 { status := some "paid" } c6P rfl
    (by decide)
  refine ⟨?_, h.1⟩
  have h6 := h.2.2.2.2.2.1 "paid" rfl (by decide) (by decide)
  exact (h6.2 c6H rfl).1

/-- Second hearing for the C9 counterexample and witness. -/
def c9H2 : Hearing :=
  { id := 2, processNumber := "2023.7654.3210", jurisdictionId := 2
    date := "2024-06-11", time := "10:00", type := "Conciliation"
    area := "Criminal", professionalId := some 2, status := "completed"
    notes := none, minutesUploaded := false, minutesUrl := none
    paymentStatus := "pending", paymentAmount := none, createdAt := 0 }

/-- Concrete store for C9: payment 1 references hearing 1; hearing 2 also
exists. -/
def c9S : MemStorage :=
  { emptyStorage with hearings := [(1, c6H), (2, c9H2)], hearingIdCounter := 3
                      payments := [(1, c6P)], paymentIdCounter := 2 }

/-- C9 counterexample: updating payment 1 with `hearingId := 2` and
`status := ""` changes both fields relative to the stored payment
(`hearingId` 1, status "pending"), so the claim requires the old hearing 1's
`paymentStatus` to become "" — but the empty string is falsy in the
JavaScript guard and no hearing is touched at all. -/
theorem C9_counterexample :
    (2 : Nat) ≠ c6P.hearingId ∧
    (some "" : Option String) ≠ some c6P.status ∧
    tableGet c9S.hearings 1 = some c6H ∧
    (updatePayment c9S 1 { hearingId := some 2, status := some "" }).2.hearings =
      c9S.hearings ∧
    c6H.paymentStatus ≠ "" := by
  refine ⟨?_, ?_, rfl, ?_, ?_⟩ <;> decide

/-- C9 (amended): when a single update to an existing payment changes its
`hearingId` and carries a *non-empty* status different from the stored one,
the status propagation targets the hearing identified by the payment's
pre-update `hearingId`: that old hearing (when it exists) gets the new
status, while the newly referenced hearing is left unchanged — even though
the stored payment now references it. -/
theorem C9_updatePayment_oldHearing_amended (s : MemStorage) (id : Nat)
    (u : PartialPayment) (ex : Payment) (h2 : Nat) (st : String)
    (hex : tableGet s.payments id = some ex)
    (hwf : ∀ e ∈ s.hearings, (e.2).id = e.1)
    (hhid : u.hearingId = some h2) (hne2 : h2 ≠ ex.hearingId)
    (hst : u.status = some st) (hstne : st ≠ "") (hstdiff : st ≠ ex.status) :
    (updatePayment s id u).1 = some (mergePayment ex u) ∧
    (mergePayment ex u).hearingId = h2 ∧
    (∀ Hold, tableGet s.hearings ex.hearingId = some Hold →
      tableGet (updatePayment s id u).2.hearings ex.hearingId =
        some ({ Hold with paymentStatus := st })) ∧
    tableGet (updatePayment s id u).2.hearings h2 = tableGet s.hearings h2 := by
  have hc : st ≠ "" ∧ ex.status ≠ st := ⟨hstne, fun hh => hstdiff hh.symm⟩
  have hfst : (updatePayment s id u).1 = some (mergePayment ex u) := by
    cases hh : tableGet s.hearings ex.hearingId with
    | none => simp [updatePayment, hex, hst, hc, hh]
    | some Hold => simp [updatePayment, hex, hst, hc, hh]
  refine ⟨hfst, by simp [mergePayment, hhid], ?_, ?_⟩
  · intro Hold hh
    have hid : Hold.id = ex.hearingId := hwf _ (mem_of_tableGet _ _ _ hh)
    have hhe : (updatePayment s id u).2.hearings =
        tableSet s.hearings Hold.id ({ Hold with paymentStatus := st }) := by
      simp [updatePayment, hex, hst, hc, hh]
    rw [hhe, hid]
    exact tableGet_set_self _ _ _
  · cases hh : tableGet s.hearings ex.hearingId with
    | none =>
        have : (updatePayment s id u).2.hearings = s.hearings := by
          simp [updatePayment, hex, hst, hc, hh]
        rw [this]
    | some Hold =>
        have hid : Hold.id = ex.hearingId := hwf _ (mem_of_tableGet _ _ _ hh)
        have hhe : (updatePayment s id u).2.hearings =
            tableSet s.hearings Hold.id ({ Hold with paymentStatus := st }) := by
          simp [updatePayment, hex, hst, hc, hh]
        rw [hhe, hid]
        exact tableGet_set_ne _ _ _ _ hne2

/-- C9 witness: at the concrete two-hearing store, updating payment 1 with
`hearingId := 2, status := "paid"` rewrites hearing 1 (the pre-update
reference) and leaves hearing 2 unchanged. -/
theorem C9_witness :
    tableGet (updatePayment c9S 1
        { hearingId := some 2, status := some "paid" }).2.hearings 1 =
      some ({ c6H with paymentStatus := "paid" }) ∧
    tableGet (updatePayment c9S 1
        { hearingId := some 2, status := some "paid" }).2.hearings 2 =
      tableGet c9S.hearings 2 ∧
    (updatePayment c9S 1 { hearingId := some 2, status := some "paid" }).1 =
      some (mergePayment c6P { hearingId := some 2, status := some "paid" }) := by
  have h := C9_updatePayment_oldHearing_amended c9S 1
    { hearingId := some 2, status := some "paid" } c6P 2 "paid" rfl
    (by decide) rfl (by decide) rfl (by decide) (by decide)
  exact ⟨h.2.2.1 c6H rfl, h.2.2.2, h.1⟩

theorem foldl_amount (l : List Payment) (a : Int) :
    l.foldl (fun sum payment => sum + payment.amount) a =
      a + (l.map Payment.amount).sum := by
  induction l generalizing a with
  | nil => simp
  | cons p ps ih => simp [List.foldl_cons, ih, add_assoc]

/-- The trailing window of the financial summary, as the claim words it:
the last 7 days for "week", the last 1 calendar month for "month", and
everything (no filter) for any other period value, "year" included. -/
def specInWindow (period : String) (now t : Int) : Bool :=
  if period = "week" then now - 7 * dayMs ≤ t
  else if period = "month" then monthAgo now ≤ t
  else true

theorem financialSummary_spec (s : MemStorage) (period : String) (now : Int) :
    getFinancialSummary s period now =
      { total := (((tableValues s.payments).filter
          (fun p => specInWindow period now p.createdAt)).map Payment.amount).sum
        pending := (((tableValues s.payments).filter
          (fun p => p.status == "pending" &&
            specInWindow period now p.createdAt)).map Payment.amount).sum
        paid := (((tableValues s.payments).filter
          (fun p => p.status == "paid" &&
            specInWindow period now p.createdAt)).map Payment.amount).sum } := by
  have hval : ∀ l : List Payment,
      l.foldl (fun sum payment => sum + payment.amount) 0 =
        (l.map Payment.amount).sum := fun l => by simpa using foldl_amount l 0
  by_cases hw : period = "week"
  · simp [getFinancialSummary, specInWindow, hw, hval, List.filter_filter]
  · by_cases hm : period = "month"
    · simp [getFinancialSummary, specInWindow, hw, hm, hval, List.filter_filter]
    · simp [getFinancialSummary, specInWindow, hw, hm, hval, List.filter_filter]

/-- C7: `getFinancialSummary(period)` selects the payments whose `createdAt`
lies in the trailing window — the last 7 days for "week", the last calendar
month for "month", and all payments for any other period value, "year"
included — and returns the amount sums over the selection: all of it
(`total`), its "pending" part, and its "paid" part.  For "week", a payment
created 10 days ago is excluded and one created 2 days ago is included. -/
theorem C7_financialSummary (s : MemStorage) (period : String) (now : Int) :
    (getFinancialSummary s period now).total =
      (((tableValues s.payments).filter
        (fun p => specInWindow period now p.createdAt)).map Payment.amount).sum ∧
    (getFinancialSummary s period now).pending =
      (((tableValues s.payments).filter
        (fun p => p.status == "pending" &&
          specInWindow period now p.createdAt)).map Payment.amount).sum ∧
    (getFinancialSummary s period now).paid =
      (((tableValues s.payments).filter
        (fun p => p.status == "paid" &&
          specInWindow period now p.createdAt)).map Payment.amount).sum ∧
    specInWindow "week" now (now - 10 * dayMs) = false ∧
    specInWindow "week" now (now - 2 * dayMs) = true ∧
    (∀ t, specInWindow "year" now t = true) := by
  refine ⟨?_, ?_, ?_, ?_, ?_, ?_⟩
  · rw [financialSummary_spec]
  · rw [financialSummary_spec]
  · rw [financialSummary_spec]
  · simp only [specInWindow, if_pos, dayMs, decide_eq_false_iff_not, not_le]
    omega
  · simp only [specInWindow, if_pos, dayMs, decide_eq_true_eq]
    omega
  · intro t
    simp [specInWindow]

/-- Concrete jurisdiction for the C8 witness. -/
def c8J : Jurisdiction :=
  { id := 1, name := "Foro Central Civil", state := "SP", city := "Sao Paulo"
    address := "a" }

/-- Concrete store for the C8 witness: jurisdiction 1 plus a hearing that
references it. -/
def c8S : MemStorage :=
  { emptyStorage with jurisdictions := [(1, c8J)], jurisdictionIdCounter := 2
                      hearings := [(1, c3H)], hearingIdCounter := 2 }

/-- C8 witness: deleting jurisdiction 1 returns true, `get` then reports it
absent, and the hearing still referencing it is untouched. -/
theorem C8_witness :
    (deleteJurisdiction c8S 1).1 = true ∧
    tableGet (deleteJurisdiction c8S 1).2.jurisdictions 1 = none ∧
    (deleteJurisdiction c8S 1).2.hearings = c8S.hearings := by
  have h := C8_deleteJurisdiction c8S 1
  exact ⟨h.1.mpr (by decide), h.2.1, h.2.2.2.1⟩

/-- C10 witness: deleting payment 1 removes it while hearing 1 keeps the
`paymentStatus`/`paymentAmount` it had, and the absent payment 2 stays
absent. -/
theorem C10_witness :
    tableGet (deletePayment c6S 1).2.payments 1 = none ∧
    (deletePayment c6S 1).2.hearings = c6S.hearings ∧
    tableGet (deletePayment c6S 1).2.payments 2 = tableGet c6S.payments 2 := by
  have h := C10_deletePayment c6S 1
  exact ⟨h.2.1, h.2.2.2.1, h.2.2.1 2 (by decide)⟩

end JurisCRM
